import Mathlib

/-!
Shallow embedding of the rust-aec CCSDS 121.0-B-3 AEC decoder
(src/bitreader.rs, src/params.rs, src/error.rs, src/decoder.rs).

Machine integers are modelled as `Nat`/`Int`; the places where the Rust
code relies on wrapping, saturating or checked arithmetic on `u32`/`usize`
are embedded with explicit `% 2^32`, `min _ U32M`, truncated `Nat`
subtraction, and explicit bound checks.  Fallible Rust functions returning
`Result<_, AecError>` become `Except AecError _`.  Debug tracing
(`RUST_AEC_TRACE_SAMPLE`) is advisory-only in the source (it never alters
output or control flow) and is omitted from the embedding.
-/

/-- Mirror of `error.rs` `AecError`. -/
inductive AecError where
  | invalidInput : String → AecError
  | unsupported : String → AecError
  | notImplementedErr : String → AecError
  | unexpectedEof : Nat → AecError
  | unexpectedEofDuringDecode : Nat → Nat → AecError
deriving Repr, DecidableEq

/-- Mirror of `params.rs` `AecFlags` (a bitflags set, one Bool per bit). -/
structure AecFlags where
  data_signed : Bool
  data_3byte : Bool
  msb : Bool
  data_preprocess : Bool
  restricted : Bool
  pad_rsi : Bool
deriving Repr, DecidableEq

/-- Mirror of `params.rs` `AecParams` (`bits_per_sample : u8`,
`block_size : u32`, `rsi : u32`). -/
structure AecParams where
  bits_per_sample : Nat
  block_size : Nat
  rsi : Nat
  flags : AecFlags
deriving Repr, DecidableEq

/-- `u32::MAX`, the saturation bound of the `u32` counters in the source. -/
def U32M : Nat := 4294967295

/-- `usize::MAX` (64-bit targets), bound of `usize` checked arithmetic. -/
def USIZEM : Nat := 18446744073709551615

/-- `u32::saturating_add` on the embedded counters. -/
def satAdd32 (a b : Nat) : Nat := min (a + b) U32M

/-- Mirror of `decoder.rs` `validate_params`. -/
def validate_params (params : AecParams) : Except AecError Unit :=
  if ¬ (1 ≤ params.bits_per_sample ∧ params.bits_per_sample ≤ 32) then
    .error (.invalidInput "bits_per_sample must be 1..=32")
  else if params.block_size = 0 then
    .error (.invalidInput "block_size must be > 0")
  else if params.rsi = 0 then
    .error (.invalidInput "rsi must be > 0")
  else if ¬ (params.block_size = 8 ∨ params.block_size = 16 ∨
             params.block_size = 32 ∨ params.block_size = 64) then
    .error (.unsupported "block_size must be one of 8,16,32,64")
  else
    .ok ()

/-- Mirror of `decoder.rs` `bytes_per_sample` (the `match` on `bps` ranges). -/
def bytes_per_sample (params : AecParams) : Except AecError Nat :=
  let bps := params.bits_per_sample
  if 1 ≤ bps ∧ bps ≤ 8 then .ok 1
  else if 9 ≤ bps ∧ bps ≤ 16 then .ok 2
  else if 17 ≤ bps ∧ bps ≤ 24 then
    .ok (if params.flags.data_3byte then 3 else 4)
  else if 25 ≤ bps ∧ bps ≤ 32 then .ok 4
  else .error (.invalidInput "invalid bits_per_sample")

/-- Mirror of `decoder.rs` `id_len`. -/
def id_len (params : AecParams) : Except AecError Nat :=
  let bps := params.bits_per_sample
  let l := if bps > 16 then 5 else if bps > 8 then 4 else 3
  .ok (if params.flags.restricted ∧ bps ≤ 4 then (if bps ≤ 2 then 1 else 2) else l)

/-- Mirror of `bitreader.rs` `BitReader`: an MSB-first cursor over a byte
slice (bytes are `Nat`s below 256 in any real input; only bits 0..7 of each
byte are ever inspected). -/
structure BitReader where
  data : List Nat
  bitPos : Nat
deriving Repr, DecidableEq

/-- One step of `BitReader::read_bits_u32`'s loop: fetch bit
`(byte >> (7 - bit_in_byte)) & 1` at the cursor, or fail with
`UnexpectedEof { bit_pos }`. -/
def BitReader.readBit1 (r : BitReader) : Except AecError (Nat × BitReader) :=
  match r.data[r.bitPos / 8]? with
  | none => .error (.unexpectedEof r.bitPos)
  | some byte => .ok ((byte >>> (7 - r.bitPos % 8)) &&& 1, ⟨r.data, r.bitPos + 1⟩)

/-- The `for _ in 0..nbits` accumulation loop of `read_bits_u32`. -/
def BitReader.readBitsGo (r : BitReader) (acc : Nat) : Nat → Except AecError (Nat × BitReader)
  | 0 => .ok (acc, r)
  | n + 1 =>
    match r.readBit1 with
    | .error e => .error e
    | .ok (bit, r') => r'.readBitsGo (acc * 2 + bit) n

/-- Mirror of `BitReader::read_bits_u32`. -/
def BitReader.read_bits_u32 (r : BitReader) (nbits : Nat) : Except AecError (Nat × BitReader) :=
  if nbits = 0 then .ok (0, r)
  else if nbits > 32 then .error (.invalidInput "read_bits_u32 supports up to 32 bits")
  else r.readBitsGo 0 nbits

/-- Mirror of `BitReader::read_bit` (`read_bits_u32(1)? != 0`). -/
def BitReader.read_bit (r : BitReader) : Except AecError (Bool × BitReader) :=
  match r.read_bits_u32 1 with
  | .error e => .error e
  | .ok (v, r') => .ok (v ≠ 0, r')

/-- Mirror of `BitReader::align_to_byte`. -/
def BitReader.align_to_byte (r : BitReader) : BitReader :=
  if r.bitPos % 8 ≠ 0 then ⟨r.data, r.bitPos + (8 - r.bitPos % 8)⟩ else r

/-- Mirror of `decoder.rs` `read_unary` (on the slice reader): count zero
bits up to the first one bit, guarded at 1_000_000.  The `bound` argument
makes the recursion structural; it starts at 1_000_001, so the guard fires
after the 1_000_001st zero bit, exactly as `count > 1_000_000` does in the
source. -/
def read_unary_go (r : BitReader) (count : Nat) : Nat → Except AecError (Nat × BitReader)
  | 0 => .error (.invalidInput "unary run too long")
  | b + 1 =>
    match r.read_bit with
    | .error e => .error e
    | .ok (bit, r') => if bit then .ok (count, r') else read_unary_go r' (count + 1) b

/-- Mirror of `decoder.rs` `read_unary`. -/
def read_unary (r : BitReader) : Except AecError (Nat × BitReader) :=
  read_unary_go r 0 1000001

/-- Mirror of `decoder.rs` `OutBuf`: a staging buffer of capacity `cap`
whose written prefix is `data` (so `pos = data.length`). -/
structure OutBuf where
  cap : Nat
  data : List Nat
  bytes_per_sample : Nat
deriving Repr, DecidableEq

/-- `OutBuf::samples_written` (`pos / bytes_per_sample`). -/
def OutBuf.samples_written (o : OutBuf) : Nat := o.data.length / o.bytes_per_sample

/-- The packed little/big-endian bytes of one sample, as emitted by the two
`for` loops of `write_sample`. -/
def sampleBytes (raw b : Nat) (msb : Bool) : List Nat :=
  if msb then ((List.range b).reverse).map (fun i => (raw >>> (i * 8)) &&& 255)
  else (List.range b).map (fun i => (raw >>> (i * 8)) &&& 255)

/-- Mirror of `decoder.rs` `write_sample`.  `value` is the `i64` sample;
the `as u64` cast is `value mod 2^64`. -/
def write_sample (out : OutBuf) (value : Int) (params : AecParams) : Except AecError OutBuf :=
  let n := params.bits_per_sample
  let mask : Nat := if n = 32 then USIZEM else 2 ^ n - 1
  let raw_u : Nat :=
    if params.flags.data_signed then (value % (2 : Int) ^ 64).toNat &&& mask
    else (max value 0).toNat &&& mask
  if out.data.length + out.bytes_per_sample > out.cap then
    .error (.invalidInput "output buffer too small")
  else
    .ok ⟨out.cap, out.data ++ sampleBytes raw_u out.bytes_per_sample params.flags.msb,
         out.bytes_per_sample⟩

/-- Interpretation of a `u32` bit pattern as `i32` (`raw as i32`). -/
def toI32 (x : Nat) : Int :=
  let m : Nat := x % 2 ^ 32
  if m < 2 ^ 31 then (m : Int) else (m : Int) - 2 ^ 32

/-- Mirror of `decoder.rs` `sign_extend`: `((raw << shift) as i32) >> shift`,
where `<<` truncates to `u32` and `>>` on `i32` is the arithmetic shift,
i.e. flooring division by `2^shift`. -/
def sign_extend (raw bits : Nat) : Int :=
  if bits = 32 then toI32 raw
  else
    let shift := 32 - bits
    Int.fdiv (toI32 ((raw <<< shift) % 2 ^ 32)) (2 ^ shift)

/-- Mirror of `decoder.rs` `inverse_preprocess_step`.  All `i64` arithmetic
is embedded on `Int` (for `n ≤ 32` none of these operations can wrap an
`i64`); `!y` on `i64` is `Int.lnot`, `^` is `Int.xor`, and the
`x_prev as u64` cast is `x_prev mod 2^64`. -/
def inverse_preprocess_step (x_prev : Int) (d : Nat) (params : AecParams) : Int :=
  let n := params.bits_per_sample
  let delta : Int := Int.xor ((d >>> 1 : Nat) : Int) (Int.lnot (((d &&& 1 : Nat) : Int) - 1))
  let half_d : Int := ((d >>> 1) + (d &&& 1) : Nat)
  if params.flags.data_signed then
    let signed_max : Int := 2 ^ (n - 1) - 1
    let data := x_prev
    if data < 0 then
      if half_d ≤ signed_max + data + 1 then data + delta
      else (d : Int) - signed_max - 1
    else
      if half_d ≤ signed_max - data then data + delta
      else signed_max - (d : Int)
  else
    let unsigned_max : Nat := 2 ^ n - 1
    let data_u : Nat := (x_prev % (2 : Int) ^ 64).toNat
    let med : Nat := unsigned_max / 2 + 1
    let mask : Nat := if data_u &&& med ≠ 0 then unsigned_max else 0
    if half_d ≤ ((mask ^^^ data_u : Nat) : Int) then x_prev + delta
    else ((mask ^^^ d : Nat) : Int)

/-- Mirror of `decoder.rs` `emit_coded_value`.  Returns the updated
`(out, predictor_x, sample_index_within_rsi)`. -/
def emit_coded_value (out : OutBuf) (predictor_x : Option Int) (params : AecParams)
    (v : Nat) (sirsi : Nat) (output_bytes : Nat) :
    Except AecError (OutBuf × Option Int × Nat) :=
  if out.data.length ≥ output_bytes then .ok (out, predictor_x, sirsi)
  else if params.flags.data_preprocess then
    match predictor_x with
    | none => .error (.invalidInput "missing reference sample")
    | some x_prev =>
      let x_next := inverse_preprocess_step x_prev v params
      match write_sample out x_next params with
      | .error e => .error e
      | .ok out' => .ok (out', some x_next, sirsi + 1)
  else
    match write_sample out (v : Int) params with
    | .error e => .error e
    | .ok out' => .ok (out', predictor_x, sirsi + 1)

/-- Mirror of `decoder.rs` `emit_repeated_value` (the `for _ in 0..count`
loop with its early `break` when the output is full). -/
def emit_repeated_value (out : OutBuf) (predictor_x : Option Int) (params : AecParams)
    (v : Nat) (count : Nat) (sirsi : Nat) (output_bytes : Nat) :
    Except AecError (OutBuf × Option Int × Nat) :=
  match count with
  | 0 => .ok (out, predictor_x, sirsi)
  | c + 1 =>
    if out.data.length ≥ output_bytes then .ok (out, predictor_x, sirsi)
    else
      match emit_coded_value out predictor_x params v sirsi output_bytes with
      | .error e => .error e
      | .ok (o, p, s) => emit_repeated_value o p params v c s output_bytes

/-- Mirror of `decoder.rs` `second_extension_pair`: the double loop
enumerates the pairs `(s-k, k)` for `s = 0..=12`, `k = 0..=s` in order and
returns the `m`-th, with the (caller-unreachable) fallback `(0, 0)`. -/
def sePairs : List (Nat × Nat) :=
  (List.range 13).flatMap (fun s => (List.range (s + 1)).map (fun k => (s - k, k)))

/-- The `m`-th Second Extension pair (see `sePairs`). -/
def second_extension_pair (m : Nat) : Nat × Nat := sePairs.getD m (0, 0)

/-- Mirror of `decoder.rs` `emit_second_extension` (the one-shot variant):
reads unary symbols `m ≤ 90`, emits the pair `(a, b)` (only `b` from the
first symbol when the RSI reference occupied slot 0), each emission
consuming one block slot, with the source's break conditions. -/
def emit_second_extension (r : BitReader) (out : OutBuf) (pred : Option Int)
    (params : AecParams) (remaining_in_block : Nat) (need_odd_first : Bool)
    (sirsi : Nat) (output_bytes : Nat) :
    Except AecError (BitReader × OutBuf × Option Int × Nat) :=
  if h : remaining_in_block = 0 ∨ out.data.length ≥ output_bytes then .ok (r, out, pred, sirsi)
  else
    match read_unary r with
    | .error e => .error e
    | .ok (m, r') =>
      if m > 90 then .error (.invalidInput "Second Extension unary symbol too large")
      else
        let p := second_extension_pair m
        if need_odd_first then
          match emit_coded_value out pred params p.2 sirsi output_bytes with
          | .error e => .error e
          | .ok (o, pr, s) =>
            emit_second_extension r' o pr params (remaining_in_block - 1) false s output_bytes
        else
          match emit_coded_value out pred params p.1 sirsi output_bytes with
          | .error e => .error e
          | .ok (o1, p1, s1) =>
            if remaining_in_block - 1 = 0 ∨ o1.data.length ≥ output_bytes then
              .ok (r', o1, p1, s1)
            else
              match emit_coded_value o1 p1 params p.2 s1 output_bytes with
              | .error e => .error e
              | .ok (o2, p2, s2) =>
                emit_second_extension r' o2 p2 params (remaining_in_block - 1 - 1) false s2
                  output_bytes
termination_by remaining_in_block
decreasing_by all_goals (simp only [not_or] at h; omega)

/-- The zero-run length in blocks (`decode_into` lines computing `z_blocks`
from `fs`): `z = fs + 1`, the `z = 5` fill-to-boundary regime, and the
`z > 5` regime; `u32::saturating_sub` is `Nat` subtraction. -/
def zeroRunBlocks (rsi b fs : Nat) : Nat :=
  let z := fs + 1
  if z = 5 then min (rsi - b) (64 - b % 64)
  else if z > 5 then z - 1
  else z

/-- The zero-run sample count of `decode_into`: `z_blocks * block_size`
as a checked `u32` multiply, minus one when the RSI reference sample was
already emitted in the run's first block. -/
def zeroRunSamplesOS (z block_size : Nat) (ref_consumed : Bool) : Except AecError Nat :=
  if z * block_size > U32M then .error (.invalidInput "zero-run overflow")
  else .ok (if ref_consumed then z * block_size - 1 else z * block_size)

/-- State of the one-shot `decode_into` loop. -/
structure DIState where
  out : OutBuf
  r : BitReader
  sirsi : Nat
  birsi : Nat
  predictor : Option Int
deriving Repr, DecidableEq

/-- The zero-run block-counter advance of `decode_into`:
`block_index_within_rsi` grows by `z` (saturating) and is reduced modulo
`rsi` — with byte alignment under `PAD_RSI` and a reset of
`sample_index_within_rsi` — when it reaches or passes `rsi`. -/
def zeroRunWrap (params : AecParams) (st : DIState) (z : Nat) : DIState :=
  let v := satAdd32 st.birsi z
  if v ≥ params.rsi then
    { st with birsi := v % params.rsi,
              r := if params.flags.pad_rsi then st.r.align_to_byte else st.r,
              sirsi := 0 }
  else { st with birsi := v }

/-- The end-of-block advance of `decode_into` (its final lines): the
counter grows by one and, only when preprocessing is on, wraps to 0 at
`rsi` with the PAD_RSI alignment and `sample_index_within_rsi` reset. -/
def endAdvance (params : AecParams) (st : DIState) : DIState :=
  let v := satAdd32 st.birsi 1
  if params.flags.data_preprocess ∧ v ≥ params.rsi then
    { st with birsi := 0, sirsi := 0,
              r := if params.flags.pad_rsi then st.r.align_to_byte else st.r }
  else { st with birsi := v }

/-- Mirror of the `consume_reference` closure of `decode_into`: read an
`n`-bit raw reference sample (EOF becomes `UnexpectedEofDuringDecode`),
sign-extend it when SIGNED, write it out verbatim. -/
def consumeReferenceOS (params : AecParams) (r : BitReader) (out : OutBuf) (sirsi : Nat) :
    Except AecError (BitReader × OutBuf × Int × Nat) :=
  match r.read_bits_u32 params.bits_per_sample with
  | .error (.unexpectedEof p) => .error (.unexpectedEofDuringDecode p out.samples_written)
  | .error e => .error e
  | .ok (ref_raw, r') =>
    let ref_val : Int :=
      if params.flags.data_signed then sign_extend ref_raw params.bits_per_sample
      else (ref_raw : Int)
    match write_sample out ref_val params with
    | .error e => .error e
    | .ok out' => .ok (r', out', ref_val, sirsi + 1)

/-- The uncompressed-block sample loop of `decode_into`: read a raw n-bit
sample, emit it, break when the output is full. -/
def uncompLoopOS (params : AecParams) (output_bytes : Nat) (r : BitReader) (out : OutBuf)
    (pred : Option Int) (sirsi : Nat) :
    Nat → Except AecError (BitReader × OutBuf × Option Int × Nat)
  | 0 => .ok (r, out, pred, sirsi)
  | c + 1 =>
    match r.read_bits_u32 params.bits_per_sample with
    | .error (.unexpectedEof p) => .error (.unexpectedEofDuringDecode p out.samples_written)
    | .error e => .error e
    | .ok (v, r') =>
      match emit_coded_value out pred params v sirsi output_bytes with
      | .error e => .error e
      | .ok (o, p2, s) =>
        if o.data.length ≥ output_bytes then .ok (r', o, p2, s)
        else uncompLoopOS params output_bytes r' o p2 s c

/-- The Rice quotient pass of `decode_into`: read all unary quotients
first.  `q.checked_shl(k)` on `u32` is `None` exactly when `k ≥ 32`
(otherwise the shift silently truncates to 32 bits), embedded as the
explicit test and `% 2^32`.  `swErr` is `out.samples_written()`, constant
during the pass, used by the EOF mapping. -/
def riceQuotOS (k swErr : Nat) (r : BitReader) (acc : List Nat) :
    Nat → Except AecError (List Nat × BitReader)
  | 0 => .ok (acc, r)
  | c + 1 =>
    match read_unary r with
    | .error (.unexpectedEof p) => .error (.unexpectedEofDuringDecode p swErr)
    | .error e => .error e
    | .ok (q, r') =>
      if k ≥ 32 then .error (.invalidInput "rice shift overflow")
      else riceQuotOS k swErr r' (acc ++ [(q <<< k) % 2 ^ 32]) c

/-- The Rice remainder pass of `decode_into`: OR a `k`-bit remainder into
each staged value, in order. -/
def riceRemOS (k swErr : Nat) (r : BitReader) (acc : List Nat) :
    List Nat → Except AecError (List Nat × BitReader)
  | [] => .ok (acc, r)
  | t :: ts =>
    match r.read_bits_u32 k with
    | .error (.unexpectedEof p) => .error (.unexpectedEofDuringDecode p swErr)
    | .error e => .error e
    | .ok (rem, r') => riceRemOS k swErr r' (acc ++ [t ||| rem]) ts

/-- The final emission loop shared by the Rice arm of `decode_into`:
emit each staged coded value, breaking when the output is full. -/
def emitListOS (params : AecParams) (output_bytes : Nat) (out : OutBuf)
    (pred : Option Int) (sirsi : Nat) :
    List Nat → Except AecError (OutBuf × Option Int × Nat)
  | [] => .ok (out, pred, sirsi)
  | v :: vs =>
    match emit_coded_value out pred params v sirsi output_bytes with
    | .error e => .error e
    | .ok (o, p, s) =>
      if o.data.length ≥ output_bytes then .ok (o, p, s)
      else emitListOS params output_bytes o p s vs

/-- One iteration of the `decode_into` loop: decode one block (or schedule
one zero run).  Early `.ok` returns embed the source's `break`s (they skip
the end-of-block counter advance, and the surrounding loop then stops
because the output is full). -/
def decodeBlock (params : AecParams) (idl output_bytes : Nat) (st : DIState) :
    Except AecError DIState :=
  let pred0 : Option Int :=
    if params.flags.data_preprocess ∧ st.birsi = 0 then none else st.predictor
  let ref_pending := params.flags.data_preprocess ∧ st.birsi = 0
  match st.r.read_bits_u32 idl with
  | .error (.unexpectedEof p) => .error (.unexpectedEofDuringDecode p st.out.samples_written)
  | .error e => .error e
  | .ok (id, r1) =>
    let max_id := 2 ^ idl - 1
    if id = 0 then
      match r1.read_bit with
      | .error (.unexpectedEof p) => .error (.unexpectedEofDuringDecode p st.out.samples_written)
      | .error e => .error e
      | .ok (selector, r2) =>
        let refStep : Except AecError (BitReader × OutBuf × Option Int × Nat × Bool) :=
          if ref_pending then
            match consumeReferenceOS params r2 st.out st.sirsi with
            | .error e => .error e
            | .ok (r3, out1, refv, s1) => .ok (r3, out1, some refv, s1, true)
          else .ok (r2, st.out, pred0, st.sirsi, false)
        match refStep with
        | .error e => .error e
        | .ok (r3, out1, pred1, sirsi1, refc) =>
          if ref_pending ∧ out1.data.length ≥ output_bytes then
            .ok ⟨out1, r3, sirsi1, st.birsi, pred1⟩
          else
            let remaining_in_block := params.block_size - (if refc then 1 else 0)
            if selector = false then
              match read_unary r3 with
              | .error (.unexpectedEof p) =>
                .error (.unexpectedEofDuringDecode p out1.samples_written)
              | .error e => .error e
              | .ok (fs, r4) =>
                let z := zeroRunBlocks params.rsi st.birsi fs
                match zeroRunSamplesOS z params.block_size refc with
                | .error e => .error e
                | .ok zeros =>
                  match emit_repeated_value out1 pred1 params 0 zeros sirsi1 output_bytes with
                  | .error e => .error e
                  | .ok (out2, pred2, sirsi2) =>
                    .ok (zeroRunWrap params ⟨out2, r4, sirsi2, st.birsi, pred2⟩ z)
            else
              match emit_second_extension r3 out1 pred1 params remaining_in_block refc sirsi1
                  output_bytes with
              | .error e => .error e
              | .ok (r4, out2, pred2, sirsi2) =>
                .ok (endAdvance params ⟨out2, r4, sirsi2, st.birsi, pred2⟩)
    else if id = max_id then
      let refStep : Except AecError (BitReader × OutBuf × Option Int × Nat × Bool) :=
        if ref_pending then
          match consumeReferenceOS params r1 st.out st.sirsi with
          | .error e => .error e
          | .ok (r2, out1, refv, s1) => .ok (r2, out1, some refv, s1, true)
        else .ok (r1, st.out, pred0, st.sirsi, false)
      match refStep with
      | .error e => .error e
      | .ok (r2, out1, pred1, sirsi1, refc) =>
        if ref_pending ∧ out1.data.length ≥ output_bytes then
          .ok ⟨out1, r2, sirsi1, st.birsi, pred1⟩
        else
          let remaining_in_block := params.block_size - (if refc then 1 else 0)
          match uncompLoopOS params output_bytes r2 out1 pred1 sirsi1 remaining_in_block with
          | .error e => .error e
          | .ok (r3, out2, pred2, sirsi2) =>
            .ok (endAdvance params ⟨out2, r3, sirsi2, st.birsi, pred2⟩)
    else
      let k := id - 1
      let refStep : Except AecError (BitReader × OutBuf × Option Int × Nat × Bool) :=
        if ref_pending then
          match consumeReferenceOS params r1 st.out st.sirsi with
          | .error e => .error e
          | .ok (r2, out1, refv, s1) => .ok (r2, out1, some refv, s1, true)
        else .ok (r1, st.out, pred0, st.sirsi, false)
      match refStep with
      | .error e => .error e
      | .ok (r2, out1, pred1, sirsi1, refc) =>
        if ref_pending ∧ out1.data.length ≥ output_bytes then
          .ok ⟨out1, r2, sirsi1, st.birsi, pred1⟩
        else
          let remaining_in_block := params.block_size - (if refc then 1 else 0)
          match riceQuotOS k out1.samples_written r2 [] remaining_in_block with
          | .error e => .error e
          | .ok (tmp0, r3) =>
            match (if k > 0 then riceRemOS k out1.samples_written r3 [] tmp0
                   else .ok (tmp0, r3)) with
            | .error e => .error e
            | .ok (tmp, r4) =>
              match emitListOS params output_bytes out1 pred1 sirsi1 tmp with
              | .error e => .error e
              | .ok (out2, pred2, sirsi2) =>
                .ok (endAdvance params ⟨out2, r4, sirsi2, st.birsi, pred2⟩)

/-- The `while out.len() < output_bytes` loop of `decode_into`.  The fuel
argument only bounds the iteration count (each iteration consumes at least
one input bit or fails, so `8 * input.length + 2` is always enough). -/
def decodeLoop (params : AecParams) (idl output_bytes : Nat) :
    Nat → DIState → Except AecError DIState
  | 0, _ => .error (.invalidInput "decode loop fuel exhausted")
  | f + 1, st =>
    if st.out.data.length < output_bytes then
      match decodeBlock params idl output_bytes st with
      | .error e => .error e
      | .ok st' => decodeLoop params idl output_bytes f st'
    else .ok st

/-- Mirror of `decoder.rs` `decode_into` (composed with the `decode`
facade's exact-size output allocation), returning the whole final loop
state.  The facade's `output.len() == output_bytes` check always passes for
the buffer `decode` allocates. -/
def decodeIntoSt (input : List Nat) (params : AecParams) (output_samples : Nat) :
    Except AecError DIState :=
  match validate_params params with
  | .error e => .error e
  | .ok _ =>
    match bytes_per_sample params with
    | .error e => .error e
    | .ok b =>
      if output_samples * b > USIZEM then .error (.invalidInput "output too large")
      else
        match id_len params with
        | .error e => .error e
        | .ok idl =>
          decodeLoop params idl (output_samples * b) (8 * input.length + 2)
            ⟨⟨output_samples * b, [], b⟩, ⟨input, 0⟩, 0, 0, none⟩

/-- Mirror of the one-shot `decode` facade: the produced output bytes. -/
def decode (input : List Nat) (params : AecParams) (output_samples : Nat) :
    Except AecError (List Nat) :=
  match decodeIntoSt input params output_samples with
  | .error e => .error e
  | .ok st => .ok st.out.data

/-- Mirror of `decoder.rs` `StreamBitReader`. -/
structure StreamBitReader where
  buf : List Nat
  bitPos : Nat
  total_bytes_dropped : Nat
deriving Repr, DecidableEq

/-- `StreamBitReader::new`. -/
def StreamBitReader.new : StreamBitReader := ⟨[], 0, 0⟩

/-- `StreamBitReader::push` (append to the tail of the buffer). -/
def StreamBitReader.push (r : StreamBitReader) (data : List Nat) : StreamBitReader :=
  ⟨r.buf ++ data, r.bitPos, r.total_bytes_dropped⟩

/-- `StreamBitReader::avail_bytes` (`buf.len().saturating_sub(bit_pos / 8)`). -/
def StreamBitReader.avail_bytes (r : StreamBitReader) : Nat :=
  r.buf.length - r.bitPos / 8

/-- `StreamBitReader::bits_read_total`. -/
def StreamBitReader.bits_read_total (r : StreamBitReader) : Nat :=
  r.total_bytes_dropped * 8 + r.bitPos

/-- `StreamBitReader::align_to_byte`. -/
def StreamBitReader.align_to_byte (r : StreamBitReader) : StreamBitReader :=
  if r.bitPos % 8 ≠ 0 then ⟨r.buf, r.bitPos + (8 - r.bitPos % 8), r.total_bytes_dropped⟩ else r

/-- One step of `StreamBitReader::read_bits_u32`'s loop; on exhaustion the
error carries `bits_read_total()`, the absolute bit position. -/
def StreamBitReader.readBit1 (r : StreamBitReader) : Except AecError (Nat × StreamBitReader) :=
  match r.buf[r.bitPos / 8]? with
  | none => .error (.unexpectedEof r.bits_read_total)
  | some byte =>
    .ok ((byte >>> (7 - r.bitPos % 8)) &&& 1, ⟨r.buf, r.bitPos + 1, r.total_bytes_dropped⟩)

/-- The accumulation loop of `StreamBitReader::read_bits_u32`. -/
def StreamBitReader.readBitsGo (r : StreamBitReader) (acc : Nat) :
    Nat → Except AecError (Nat × StreamBitReader)
  | 0 => .ok (acc, r)
  | n + 1 =>
    match r.readBit1 with
    | .error e => .error e
    | .ok (bit, r') => r'.readBitsGo (acc * 2 + bit) n

/-- Mirror of `StreamBitReader::read_bits_u32`. -/
def StreamBitReader.read_bits_u32 (r : StreamBitReader) (nbits : Nat) :
    Except AecError (Nat × StreamBitReader) :=
  if nbits = 0 then .ok (0, r)
  else if nbits > 32 then .error (.invalidInput "read_bits_u32 supports up to 32 bits")
  else r.readBitsGo 0 nbits

/-- Mirror of `StreamBitReader::read_bit`. -/
def StreamBitReader.read_bit (r : StreamBitReader) : Except AecError (Bool × StreamBitReader) :=
  match r.read_bits_u32 1 with
  | .error e => .error e
  | .ok (v, r') => .ok (v ≠ 0, r')

/-- Mirror of `StreamBitReader::compact_consumed_bytes`: drop the whole
bytes behind the cursor, returning how many were dropped. -/
def StreamBitReader.compact_consumed_bytes (r : StreamBitReader) : Nat × StreamBitReader :=
  let bytes := r.bitPos / 8
  if bytes = 0 then (0, r)
  else (bytes, ⟨r.buf.drop bytes, r.bitPos - bytes * 8, r.total_bytes_dropped + bytes⟩)

/-- Mirror of `decoder.rs` `read_unary_stream` (same structure as
`read_unary`, over the streaming reader). -/
def read_unary_stream_go (r : StreamBitReader) (count : Nat) :
    Nat → Except AecError (Nat × StreamBitReader)
  | 0 => .error (.invalidInput "unary run too long")
  | b + 1 =>
    match r.read_bit with
    | .error e => .error e
    | .ok (bit, r') => if bit then .ok (count, r') else read_unary_stream_go r' (count + 1) b

/-- Mirror of `decoder.rs` `read_unary_stream`. -/
def read_unary_stream (r : StreamBitReader) : Except AecError (Nat × StreamBitReader) :=
  read_unary_stream_go r 0 1000001

/-- Mirror of `decoder.rs` `PendingRepeat`. -/
structure PendingRepeat where
  coded_value : Nat
  remaining : Nat
deriving Repr, DecidableEq

/-- Mirror of `decoder.rs` `Decoder` (the streaming decoder's state). -/
structure Decoder where
  params : AecParams
  bytes_per_sample : Nat
  id_len : Nat
  preprocess : Bool
  output_samples : Nat
  samples_written : Nat
  predictor_x : Option Int
  sample_index_within_rsi : Nat
  block_index_within_rsi : Nat
  reader : StreamBitReader
  pending : List Nat
  pending_pos : Nat
  pending_repeat : Option PendingRepeat
  total_in : Nat
  total_out : Nat
deriving Repr, DecidableEq

/-- Mirror of `Decoder::new` (named `mkDecoder` because `Decoder.new`
would resolve `bytes_per_sample`/`id_len` to the structure's fields). -/
def mkDecoder (params : AecParams) (output_samples : Nat) : Except AecError Decoder :=
  match validate_params params with
  | .error e => .error e
  | .ok _ =>
    match bytes_per_sample params with
    | .error e => .error e
    | .ok b =>
      match id_len params with
      | .error e => .error e
      | .ok idl =>
        .ok ⟨params, b, idl, params.flags.data_preprocess, output_samples, 0, none, 0, 0,
             StreamBitReader.new, [], 0, none, 0, 0⟩

/-- Mirror of `Decoder::push_input`. -/
def Decoder.push_input (d : Decoder) (input : List Nat) : Decoder :=
  { d with reader := d.reader.push input }

/-- Mirror of `Decoder::total_in`. -/
def Decoder.total_in_fn (d : Decoder) : Nat := d.total_in

/-- Mirror of `Decoder::total_out`. -/
def Decoder.total_out_fn (d : Decoder) : Nat := d.total_out

/-- Mirror of `Decoder::avail_in` (`reader.avail_bytes()`). -/
def Decoder.avail_in (d : Decoder) : Nat := d.reader.avail_bytes

/-- The `consume_reference` closure of `Decoder::decode_next_unit` (no EOF
remapping here; the plain `UnexpectedEof` propagates to `decode`). -/
def consumeReferenceStream (params : AecParams) (r : StreamBitReader) (out : OutBuf)
    (sirsi : Nat) : Except AecError (StreamBitReader × OutBuf × Int × Nat) :=
  match r.read_bits_u32 params.bits_per_sample with
  | .error e => .error e
  | .ok (ref_raw, r') =>
    let ref_val : Int :=
      if params.flags.data_signed then sign_extend ref_raw params.bits_per_sample
      else (ref_raw : Nat)
    match write_sample out ref_val params with
    | .error e => .error e
    | .ok out' => .ok (r', out', ref_val, sirsi + 1)

/-- The Second Extension loop of `Decoder::decode_next_unit` (which caps
the number of produced samples at
`max_samples_this_block - reference_sample_consumed` and counts
`samples_written` as it goes), returning
`(reader, out, predictor, sirsi, samples_written)`. -/
def seStreamGo (params : AecParams) (cap : Nat) (r : StreamBitReader) (out : OutBuf)
    (pred : Option Int) (sirsi : Nat) (sw : Nat) (remaining_in_block produced : Nat) :
    Except AecError (StreamBitReader × OutBuf × Option Int × Nat × Nat) :=
  if h : remaining_in_block = 0 ∨ ¬ produced < cap then .ok (r, out, pred, sirsi, sw)
  else
    match read_unary_stream r with
    | .error e => .error e
    | .ok (m, r') =>
      if m > 90 then .error (.invalidInput "Second Extension unary symbol too large")
      else
        let p := second_extension_pair m
        match (if produced < cap then
                 match emit_coded_value out pred params p.1 sirsi USIZEM with
                 | .error e => .error e
                 | .ok (o, pr, s) => .ok (o, pr, s, produced + 1, sw + 1)
               else .ok (out, pred, sirsi, produced, sw) :
               Except AecError (OutBuf × Option Int × Nat × Nat × Nat)) with
        | .error e => .error e
        | .ok (o1, p1, s1, produced1, sw1) =>
          let rem1 := if remaining_in_block > 0 then remaining_in_block - 1
                      else remaining_in_block
          match (if produced1 < cap then
                   match emit_coded_value o1 p1 params p.2 s1 USIZEM with
                   | .error e => .error e
                   | .ok (o, pr, s) => .ok (o, pr, s, produced1 + 1, sw1 + 1)
                 else .ok (o1, p1, s1, produced1, sw1) :
                 Except AecError (OutBuf × Option Int × Nat × Nat × Nat)) with
          | .error e => .error e
          | .ok (o2, p2, s2, produced2, sw2) =>
            let rem2 := if rem1 > 0 then rem1 - 1 else rem1
            seStreamGo params cap r' o2 p2 s2 sw2 rem2 produced2
termination_by remaining_in_block
decreasing_by simp only [not_or] at h; split <;> (try split) <;> omega

/-- The uncompressed-block loop of `Decoder::decode_next_unit`. -/
def uncompLoopStream (params : AecParams) (output_samples : Nat) (r : StreamBitReader)
    (out : OutBuf) (pred : Option Int) (sirsi sw : Nat) :
    Nat → Except AecError (StreamBitReader × OutBuf × Option Int × Nat × Nat)
  | 0 => .ok (r, out, pred, sirsi, sw)
  | c + 1 =>
    if sw ≥ output_samples then .ok (r, out, pred, sirsi, sw)
    else
      match r.read_bits_u32 params.bits_per_sample with
      | .error e => .error e
      | .ok (v, r') =>
        match emit_coded_value out pred params v sirsi USIZEM with
        | .error e => .error e
        | .ok (o, p2, s) => uncompLoopStream params output_samples r' o p2 s (sw + 1) c

/-- The Rice quotient pass of `Decoder::decode_next_unit` (same
`checked_shl` behaviour as the one-shot path). -/
def riceQuotStream (k : Nat) (r : StreamBitReader) (acc : List Nat) :
    Nat → Except AecError (List Nat × StreamBitReader)
  | 0 => .ok (acc, r)
  | c + 1 =>
    match read_unary_stream r with
    | .error e => .error e
    | .ok (q, r') =>
      if k ≥ 32 then .error (.invalidInput "rice shift overflow")
      else riceQuotStream k r' (acc ++ [(q <<< k) % 2 ^ 32]) c

/-- The Rice remainder pass of `Decoder::decode_next_unit`. -/
def riceRemStream (k : Nat) (r : StreamBitReader) (acc : List Nat) :
    List Nat → Except AecError (List Nat × StreamBitReader)
  | [] => .ok (acc, r)
  | t :: ts =>
    match r.read_bits_u32 k with
    | .error e => .error e
    | .ok (rem, r') => riceRemStream k r' (acc ++ [t ||| rem]) ts

/-- The final emission loop of the Rice arm of `Decoder::decode_next_unit`
(breaks when `samples_written` reaches `output_samples`). -/
def emitListStream (params : AecParams) (output_samples : Nat) (out : OutBuf)
    (pred : Option Int) (sirsi sw : Nat) :
    List Nat → Except AecError (OutBuf × Option Int × Nat × Nat)
  | [] => .ok (out, pred, sirsi, sw)
  | v :: vs =>
    if sw ≥ output_samples then .ok (out, pred, sirsi, sw)
    else
      match emit_coded_value out pred params v sirsi USIZEM with
      | .error e => .error e
      | .ok (o, p, s) => emitListStream params output_samples o p s (sw + 1) vs

/-- Mirror of `Decoder::decode_next_unit`: decode one unit (block or zero
run) into a fresh per-block staging buffer, leaving its bytes in `pending`
(and long runs in `pending_repeat`).  Early `.ok` in the zero-run arm skips
the common end-of-block advance, as the source's `return Ok(())` does. -/
def decode_next_unit (d : Decoder) : Except AecError Decoder :=
  if d.pending_pos < d.pending.length then .ok d
  else
    let out0 : OutBuf := ⟨d.bytes_per_sample * d.params.block_size, [], d.bytes_per_sample⟩
    let pred0 : Option Int :=
      if d.preprocess ∧ d.block_index_within_rsi = 0 then none else d.predictor_x
    let ref_pending := d.preprocess ∧ d.block_index_within_rsi = 0
    match d.reader.read_bits_u32 d.id_len with
    | .error e => .error e
    | .ok (id, r1) =>
      let max_id := 2 ^ d.id_len - 1
      let remaining_total_samples := d.output_samples - d.samples_written
      let max_samples_this_block := min d.params.block_size remaining_total_samples
      if id = 0 then
        match r1.read_bit with
        | .error e => .error e
        | .ok (selector, r2) =>
          match (if ref_pending then
                   match consumeReferenceStream d.params r2 out0 d.sample_index_within_rsi with
                   | .error e => .error e
                   | .ok (r3, out1, refv, s1) =>
                     .ok (r3, out1, some refv, s1, true, d.samples_written + 1)
                 else .ok (r2, out0, pred0, d.sample_index_within_rsi, false, d.samples_written) :
                 Except AecError
                   (StreamBitReader × OutBuf × Option Int × Nat × Bool × Nat)) with
          | .error e => .error e
          | .ok (r3, out1, pred1, sirsi1, refc, sw1) =>
            let remaining_total' := d.output_samples - sw1
            let remaining_in_block := d.params.block_size - (if refc then 1 else 0)
            if selector = false then
              match read_unary_stream r3 with
              | .error e => .error e
              | .ok (fs, r4) =>
                let z := zeroRunBlocks d.params.rsi d.block_index_within_rsi fs
                if z * d.params.block_size > USIZEM then
                  .error (.invalidInput "zero-run overflow")
                else
                  let zeros0 := z * d.params.block_size - (if refc then 1 else 0)
                  let zeros := min zeros0 remaining_total'
                  let bi := satAdd32 d.block_index_within_rsi z
                  let afterWrap : StreamBitReader × Nat × Nat :=
                    if bi ≥ d.params.rsi then
                      (if d.params.flags.pad_rsi then r4.align_to_byte else r4,
                       bi % d.params.rsi, 0)
                    else (r4, bi, sirsi1)
                  .ok { d with
                        reader := afterWrap.1,
                        predictor_x := pred1,
                        sample_index_within_rsi := afterWrap.2.2,
                        block_index_within_rsi := afterWrap.2.1,
                        samples_written := sw1,
                        pending := out1.data,
                        pending_pos := 0,
                        pending_repeat :=
                          if zeros > 0 then some ⟨0, zeros⟩ else d.pending_repeat }
            else
              match seStreamGo d.params (max_samples_this_block - (if refc then 1 else 0))
                  r3 out1 pred1 sirsi1 sw1 remaining_in_block 0 with
              | .error e => .error e
              | .ok (r4, out2, pred2, sirsi2, sw2) =>
                let bi := satAdd32 d.block_index_within_rsi 1
                let wrap := d.preprocess ∧ bi ≥ d.params.rsi
                .ok { d with
                      reader := if wrap ∧ d.params.flags.pad_rsi then r4.align_to_byte else r4,
                      predictor_x := pred2,
                      sample_index_within_rsi := if wrap then 0 else sirsi2,
                      block_index_within_rsi := if wrap then 0 else bi,
                      samples_written := sw2,
                      pending := out2.data,
                      pending_pos := 0 }
      else if id = max_id then
        match (if ref_pending then
                 match consumeReferenceStream d.params r1 out0 d.sample_index_within_rsi with
                 | .error e => .error e
                 | .ok (r2, out1, refv, s1) =>
                   .ok (r2, out1, some refv, s1, true, d.samples_written + 1)
               else .ok (r1, out0, pred0, d.sample_index_within_rsi, false, d.samples_written) :
               Except AecError (StreamBitReader × OutBuf × Option Int × Nat × Bool × Nat)) with
        | .error e => .error e
        | .ok (r2, out1, pred1, sirsi1, refc, sw1) =>
          let remaining_in_block := d.params.block_size - (if refc then 1 else 0)
          match uncompLoopStream d.params d.output_samples r2 out1 pred1 sirsi1 sw1
              remaining_in_block with
          | .error e => .error e
          | .ok (r3, out2, pred2, sirsi2, sw2) =>
            let bi := satAdd32 d.block_index_within_rsi 1
            let wrap := d.preprocess ∧ bi ≥ d.params.rsi
            .ok { d with
                  reader := if wrap ∧ d.params.flags.pad_rsi then r3.align_to_byte else r3,
                  predictor_x := pred2,
                  sample_index_within_rsi := if wrap then 0 else sirsi2,
                  block_index_within_rsi := if wrap then 0 else bi,
                  samples_written := sw2,
                  pending := out2.data,
                  pending_pos := 0 }
      else
        let k := id - 1
        match (if ref_pending then
                 match consumeReferenceStream d.params r1 out0 d.sample_index_within_rsi with
                 | .error e => .error e
                 | .ok (r2, out1, refv, s1) =>
                   .ok (r2, out1, some refv, s1, true, d.samples_written + 1)
               else .ok (r1, out0, pred0, d.sample_index_within_rsi, false, d.samples_written) :
               Except AecError (StreamBitReader × OutBuf × Option Int × Nat × Bool × Nat)) with
        | .error e => .error e
        | .ok (r2, out1, pred1, sirsi1, refc, sw1) =>
          let remaining_in_block := d.params.block_size - (if refc then 1 else 0)
          let n := min remaining_in_block (d.output_samples - sw1)
          match riceQuotStream k r2 [] n with
          | .error e => .error e
          | .ok (tmp0, r3) =>
            match (if k > 0 then riceRemStream k r3 [] tmp0 else .ok (tmp0, r3) :
                   Except AecError (List Nat × StreamBitReader)) with
            | .error e => .error e
            | .ok (tmp, r4) =>
              match emitListStream d.params d.output_samples out1 pred1 sirsi1 sw1 tmp with
              | .error e => .error e
              | .ok (out2, pred2, sirsi2, sw2) =>
                let bi := satAdd32 d.block_index_within_rsi 1
                let wrap := d.preprocess ∧ bi ≥ d.params.rsi
                .ok { d with
                      reader := if wrap ∧ d.params.flags.pad_rsi then r4.align_to_byte else r4,
                      predictor_x := pred2,
                      sample_index_within_rsi := if wrap then 0 else sirsi2,
                      block_index_within_rsi := if wrap then 0 else bi,
                      samples_written := sw2,
                      pending := out2.data,
                      pending_pos := 0 }

/-- Mirror of `decoder.rs` `Flush`. -/
inductive Flush where
  | noFlush
  | flush
deriving Repr, DecidableEq

/-- Mirror of `decoder.rs` `DecodeStatus`. -/
inductive DecodeStatus where
  | needInput
  | needOutput
  | finished
deriving Repr, DecidableEq

/-- Mirror of `Decoder::flush_pending`: copy up to `room` bytes of the
undrained pending suffix, returning the copied bytes. -/
def Decoder.flush_pending (d : Decoder) (room : Nat) : List Nat × Decoder :=
  if d.pending_pos ≥ d.pending.length then ([], { d with pending := [], pending_pos := 0 })
  else
    let remaining := d.pending.length - d.pending_pos
    let to_copy := min room remaining
    ((d.pending.drop d.pending_pos).take to_copy,
     { d with pending_pos := d.pending_pos + to_copy })

/-- The `while` loop of `Decoder::flush_repeat`, structurally recursive on
the repeat count; returns the optional status of the source together with
the bytes written so far and the updated decoder. -/
def flushRepeatGo (v : Nat) (out_len : Nat) :
    Nat → List Nat → Decoder → Except AecError (Option DecodeStatus × List Nat × Decoder)
  | 0, w, d =>
    let d' := { d with pending_repeat := none }
    if w.length ≥ out_len then .ok (some .needOutput, w, d') else .ok (none, w, d')
  | rem + 1, w, d =>
    if ¬ w.length < out_len then
      .ok (some .needOutput, w, { d with pending_repeat := some ⟨v, rem + 1⟩ })
    else if d.samples_written ≥ d.output_samples then
      .ok (some .finished, w, { d with pending_repeat := none })
    else if w.length + d.bytes_per_sample > out_len then
      .ok (some .needOutput, w, { d with pending_repeat := some ⟨v, rem + 1⟩ })
    else
      match emit_coded_value ⟨d.bytes_per_sample, [], d.bytes_per_sample⟩ d.predictor_x
          d.params v d.sample_index_within_rsi USIZEM with
      | .error e => .error e
      | .ok (o, p, s) =>
        flushRepeatGo v out_len rem (w ++ o.data)
          { d with predictor_x := p, sample_index_within_rsi := s,
                   samples_written := d.samples_written + 1 }

/-- Mirror of `Decoder::flush_repeat`. -/
def Decoder.flush_repeat (d : Decoder) (out_len : Nat) (w : List Nat) :
    Except AecError (Option DecodeStatus × List Nat × Decoder) :=
  match d.pending_repeat with
  | none => .ok (none, w, d)
  | some rep => flushRepeatGo rep.coded_value out_len rep.remaining w d

/-- The predictor reset performed at the top of the `Decoder::decode` loop
when a new RSI starts (the state also snapshotted before the block). -/
def Decoder.rsiPredictorReset (d : Decoder) : Decoder :=
  if d.preprocess ∧ d.block_index_within_rsi = 0 then { d with predictor_x := none } else d

/-- The compaction step after a successfully decoded unit: drop the
consumed whole bytes from the reader and add their count to `total_in`. -/
def Decoder.afterCompact (d1 : Decoder) : Decoder :=
  { d1 with reader := d1.reader.compact_consumed_bytes.2,
            total_in := d1.total_in + d1.reader.compact_consumed_bytes.1 }

/-- The tail of a successful loop iteration of `Decoder::decode`: compact
the reader (advancing `total_in`), drain pending bytes (returning
NeedOutput when the caller buffer fills), then drain the pending repeat
run.  `.inl` is an early return of `(written, status, decoder)`; `.inr`
means the loop continues with the bytes written so far and the updated
decoder. -/
def decodeGoStep (out_len : Nat) (w : List Nat) (d1 : Decoder) :
    Except AecError ((List Nat × DecodeStatus × Decoder) ⊕ (List Nat × Decoder)) :=
  if (w ++ (d1.afterCompact.flush_pending (out_len - w.length)).1).length ≥ out_len then
    .ok (.inl (w ++ (d1.afterCompact.flush_pending (out_len - w.length)).1, .needOutput,
      { (d1.afterCompact.flush_pending (out_len - w.length)).2 with
        total_out := (d1.afterCompact.flush_pending (out_len - w.length)).2.total_out +
          (w ++ (d1.afterCompact.flush_pending (out_len - w.length)).1).length }))
  else
    match (d1.afterCompact.flush_pending (out_len - w.length)).2.flush_repeat out_len
        (w ++ (d1.afterCompact.flush_pending (out_len - w.length)).1) with
    | .error e => .error e
    | .ok r =>
      match r.1 with
      | some status =>
        .ok (.inl (r.2.1, status, { r.2.2 with total_out := r.2.2.total_out + r.2.1.length }))
      | none => .ok (.inr (r.2.1, r.2.2))

/-- The decode-blocks loop of `Decoder::decode` (its `while written <
out.len()`).  The fuel only bounds iterations; on success each iteration
consumes input bits or drains staged output, so the fuel computed by
`Decoder.decode` is always sufficient.  On `UnexpectedEof` (either
variant) from `decode_next_unit`, the pre-block snapshot
`d.rsiPredictorReset` itself is the restored state since
`decode_next_unit` is pure here. -/
def decodeGoBody (out_len : Nat) (flush : Flush)
    (rec : List Nat → Decoder → Except AecError (List Nat × DecodeStatus × Decoder))
    (w : List Nat) (d : Decoder) : Except AecError (List Nat × DecodeStatus × Decoder) :=
  if ¬ w.length < out_len then
    .ok (w, .needOutput, { d with total_out := d.total_out + w.length })
  else if d.samples_written ≥ d.output_samples then
    .ok (w, .finished, { d with total_out := d.total_out + w.length })
  else
    match decode_next_unit d.rsiPredictorReset with
    | .ok d1 =>
      match decodeGoStep out_len w d1 with
      | .error e => .error e
      | .ok su =>
        match su with
        | .inl res => .ok res
        | .inr cont => rec cont.1 cont.2
    | .error (.unexpectedEof p) =>
      match flush with
      | .noFlush =>
        .ok (w, .needInput,
          { d.rsiPredictorReset with total_out := d.rsiPredictorReset.total_out + w.length })
      | .flush =>
        .error (.unexpectedEofDuringDecode d.rsiPredictorReset.reader.bits_read_total
          d.rsiPredictorReset.samples_written)
    | .error (.unexpectedEofDuringDecode p s) =>
      match flush with
      | .noFlush =>
        .ok (w, .needInput,
          { d.rsiPredictorReset with total_out := d.rsiPredictorReset.total_out + w.length })
      | .flush =>
        .error (.unexpectedEofDuringDecode d.rsiPredictorReset.reader.bits_read_total
          d.rsiPredictorReset.samples_written)
    | .error e => .error e

def decodeGo (out_len : Nat) (flush : Flush) :
    Nat → List Nat → Decoder → Except AecError (List Nat × DecodeStatus × Decoder)
  | 0, _, _ => .error (.invalidInput "stream loop fuel exhausted")
  | f + 1, w, d =>
    decodeGoBody out_len flush (fun w2 d2 => decodeGo out_len flush f w2 d2) w d

/-- Mirror of `Decoder::decode`: drain pending bytes, drain the pending
repeat run, then decode blocks until the caller buffer is full or decoding
finishes.  Returns the bytes written into the caller's buffer (the Rust
`(written, status)` pair, with the written prefix made explicit) plus the
updated decoder. -/
def Decoder.decode (d : Decoder) (out_len : Nat) (flush : Flush) :
    Except AecError (List Nat × DecodeStatus × Decoder) :=
  if d.samples_written ≥ d.output_samples then .ok ([], .finished, d)
  else
    if (d.flush_pending out_len).1.length ≥ out_len then
      .ok ((d.flush_pending out_len).1, .needOutput,
        { (d.flush_pending out_len).2 with
          total_out := (d.flush_pending out_len).2.total_out +
            (d.flush_pending out_len).1.length })
    else
      match (d.flush_pending out_len).2.flush_repeat out_len (d.flush_pending out_len).1 with
      | .error e => .error e
      | .ok r =>
        match r.1 with
        | some status =>
          .ok (r.2.1, status, { r.2.2 with total_out := r.2.2.total_out + r.2.1.length })
        | none =>
          decodeGo out_len flush
            (r.2.2.output_samples + 8 * r.2.2.reader.buf.length + out_len + 4) r.2.1 r.2.2

/-- Modelled from the spec (§4.4 SIGNED reconstruction), for comparison
with `inverse_preprocess_step`: `delta` is the unfolding map (LSB of `d`
is the sign), `half_d = ceil(d/2)`, and the two boundary-reflection
branches use `signed_max = 2^(n-1) - 1`. -/
def specReconstructSigned (n : Nat) (x : Int) (d : Nat) : Int :=
  let signed_max : Int := 2 ^ (n - 1) - 1
  let delta : Int := if d % 2 = 0 then ((d / 2 : Nat) : Int) else -((d / 2 : Nat) : Int) - 1
  let half_d : Int := ((d / 2 + d % 2 : Nat) : Int)
  if x < 0 then
    if half_d ≤ signed_max + x + 1 then x + delta else (d : Int) - signed_max - 1
  else
    if half_d ≤ signed_max - x then x + delta else signed_max - (d : Int)

/-- Modelled from the spec (§4.4 UNSIGNED reconstruction), for comparison
with `inverse_preprocess_step`: `med = unsigned_max/2 + 1` is the MSB
mask, `mask` is all-ones when the predictor has that bit set. -/
def specReconstructUnsigned (n : Nat) (x : Nat) (d : Nat) : Int :=
  let unsigned_max : Nat := 2 ^ n - 1
  let med : Nat := unsigned_max / 2 + 1
  let mask : Nat := if x &&& med ≠ 0 then unsigned_max else 0
  let delta : Int := if d % 2 = 0 then ((d / 2 : Nat) : Int) else -((d / 2 : Nat) : Int) - 1
  let half_d : Nat := d / 2 + d % 2
  if half_d ≤ (mask ^^^ x) then (x : Int) + delta else ((mask ^^^ d : Nat) : Int)

/-- Parameter set used by the concrete witnesses: 8-bit unsigned samples,
block size 8, RSI 128, no flags. -/
def demoParams : AecParams := ⟨8, 8, 128, ⟨false, false, false, false, false, false⟩⟩

/-- Parameter set with SIGNED and PREPROCESS set (witnesses). -/
def demoParamsSigned : AecParams := ⟨8, 8, 128, ⟨true, false, false, true, false, false⟩⟩

/-- The payload of the streaming/one-shot divergence: one Rice block
(id = 2, k = 1) whose remainder bits sit at different offsets for the two
decoders once the output is a strict prefix of the block. -/
def c1Input : List Nat := [95, 224, 0]

/-- Drive the streaming decoder once over a fully pushed payload: build the
decoder, push the whole payload, decode with a 4-byte buffer and FLUSH.
Returns the written bytes and the status. -/
def c1StreamRun : Except AecError (List Nat × DecodeStatus) :=
  match mkDecoder demoParams 1 with
  | .error e => .error e
  | .ok d0 =>
    match (d0.push_input c1Input).decode 4 .flush with
    | .error e => .error e
    | .ok (w, s, _) => .ok (w, s)

/-- Parameters for the Rice shift-overflow input: 17-bit samples make
`id_len = 5`, so option id 30 selects Rice with `k = 29`. -/
def c5Params : AecParams := ⟨17, 8, 128, ⟨false, false, false, false, false, false⟩⟩

/-- A Rice block (id = 30, k = 29) whose first quotient is 8, so
`8 << 29 = 2^32` overflows `u32`: five id bits `11110`, a unary 8
(`00000000 1`), seven unary zeros (`1111111`), then eight 29-bit zero
remainders. -/
def c5Input : List Nat := [240, 7, 248] ++ List.replicate 29 0

/-- Parameters (no PREPROCESS, RSI = 1) under which the one-shot block
counter passes `rsi` (the end-of-block wrap is guarded by PREPROCESS). -/
def c6Params : AecParams := ⟨8, 8, 1, ⟨false, false, false, false, false, false⟩⟩

/-- One uncompressed block (id = 7) of eight zero samples, padded so a
second block read begins: decoding 9 samples keeps the loop going after
the first block. -/
def c6Input : List Nat := [224, 0, 0, 0, 0, 0, 0, 0, 0]

/-- The initial `decode_into` state for `c6Input` with 9 output samples. -/
def c6St0 : DIState := ⟨⟨9, [], 1⟩, ⟨c6Input, 0⟩, 0, 0, none⟩

/-- PREPROCESS-enabled parameters (RSI = 2) for the amended-C6 witness. -/
def c6wParams : AecParams := ⟨8, 8, 2, ⟨false, false, false, true, false, false⟩⟩

/-- The state produced by one `decodeBlock` step on `c6Input` under
`c6wParams` (an uncompressed block with a reference sample). -/
def c6wSt1 : DIState :=
  match decodeBlock c6wParams 3 9 c6St0 with
  | .ok st => st
  | .error _ => c6St0

/-- The state after the first block of the 9-sample decode of `c6Input`
under `c6Params` (no PREPROCESS, `rsi = 1`). -/
def c6St1 : DIState :=
  match decodeBlock c6Params 3 9 c6St0 with
  | .ok st => st
  | .error _ => c6St0

/-- A unary symbol 91 (91 zero bits then a one bit): `emit_second_extension`
must reject it. -/
def c4BadInput : List Nat := List.replicate 11 0 ++ [16]

/-- An empty staging buffer of capacity 8 for one-byte samples. -/
def demoOut8 : OutBuf := ⟨8, [], 1⟩

/-- The streaming decoder built by `Decoder::new` over `demoParams` for one
output sample. -/
def demoDecoder : Decoder :=
  ⟨demoParams, 1, 3, false, 1, 0, none, 0, 0, StreamBitReader.new, [], 0, none, 0, 0⟩

/-- The status of a streaming decode result, when it has one. -/
def decodeStatusOf (x : Except AecError (List Nat × DecodeStatus × Decoder)) :
    Option DecodeStatus :=
  match x with
  | .ok (_, s, _) => some s
  | .error _ => none

/-- If the output is not yet full, `decodeLoop` stops exactly when it is. -/
theorem decodeLoop_done (params : AecParams) (idl ob f : Nat) (st : DIState)
    (h : ¬ st.out.data.length < ob) :
    decodeLoop params idl ob (f + 1) st = .ok st := by
  simp [decodeLoop, h]

/-- Valid parameters always have a byte width: `bytes_per_sample` succeeds. -/
theorem bytes_per_sample_of_valid (params : AecParams)
    (h : validate_params params = .ok ()) : ∃ b, bytes_per_sample params = .ok b := by
  obtain ⟨h1, h2⟩ : 1 ≤ params.bits_per_sample ∧ params.bits_per_sample ≤ 32 := by
    by_contra hc
    simp [validate_params, hc] at h
  simp only [bytes_per_sample]
  split_ifs <;> first | exact ⟨_, rfl⟩ | omega

/-- C1: the spec's ordering guarantee fails on the code: for the Rice
payload `c1Input` (id = 2, k = 1, one requested sample), the streaming
decoder reads only `min(block, remaining_output)` quotients before the
remainders while the one-shot decoder reads the whole block's quotients
first, so their remainder bits come from different offsets: streaming
yields byte 1, one-shot yields byte 0. -/
theorem c1_streaming_one_shot_divergence :
    c1StreamRun = .ok ([1], .finished) ∧
    decode c1Input demoParams 1 = .ok [0] ∧
    ([1] : List Nat) ≠ [0] :=
  ⟨rfl, rfl, by decide⟩

/-- C5: a quotient shift overflow is NOT rejected: on `c5Input` the first
quotient is 8 and `k = 29`, so `8 << 29 = 2^32` wraps to 0 (Rust's
`checked_shl` only fails for shift amounts ≥ 32, and `k = id - 1 ≤ 29`
always), and the decode returns `Ok` with the truncated sample instead of
`INVALID_INPUT`. -/
theorem c5_rice_shift_overflow_not_rejected :
    decode c5Input c5Params 1 = .ok [0, 0, 0, 0] ∧ (8 <<< 29) % 2 ^ 32 = 0 :=
  ⟨rfl, by decide⟩

/-- C6 counterexample: without PREPROCESS the end-of-block advance never
wraps, so with `rsi = 1` the state reached after the first block of a
9-sample decode of `c6Input` has `block_index_within_rsi = 1 = rsi`,
falsifying `block_index_within_rsi < R` for reachable states.  The first
two conjuncts show the state is reached by the `decode_into` loop itself. -/
theorem c6_counter_reaches_rsi_without_preprocess :
    decodeIntoSt c6Input c6Params 9 = decodeLoop c6Params 3 9 74 c6St0 ∧
    decodeLoop c6Params 3 9 74 c6St0 = decodeLoop c6Params 3 9 73 c6St1 ∧
    decodeBlock c6Params 3 9 c6St0 = .ok c6St1 ∧
    c6St1.out.data.length < 9 ∧
    ¬ c6St1.birsi < c6Params.rsi :=
  ⟨rfl, rfl, rfl, by decide, by decide⟩

/-- C7 counterexample: `decode(buf, FLUSH)` is not restricted to
`Finished`-or-EOF: a fresh decoder with one pending output sample and a
zero-length caller buffer returns `(0, NeedOutput)` under FLUSH. -/
theorem c7_flush_can_return_need_output :
    mkDecoder demoParams 1 = .ok demoDecoder ∧
    ∃ d', demoDecoder.decode 0 .flush = .ok ([], .needOutput, d') :=
  ⟨rfl, _, rfl⟩

/-- C9: with `output_samples = 0` and any valid parameter set, the one-shot
decode returns an empty output without reading any input bit (the loop
body is never entered, so the final cursor still sits at bit 0). -/
theorem c9_zero_output_samples (input : List Nat) (params : AecParams)
    (h : validate_params params = .ok ()) :
    decode input params 0 = .ok [] ∧
    ∃ st, decodeIntoSt input params 0 = .ok st ∧ st.out.data = [] ∧ st.r = ⟨input, 0⟩ := by
  obtain ⟨b, hb⟩ := bytes_per_sample_of_valid params h
  obtain ⟨idl, hidl⟩ : ∃ idl, id_len params = .ok idl := ⟨_, rfl⟩
  have key : decodeIntoSt input params 0 = .ok ⟨⟨0 * b, [], b⟩, ⟨input, 0⟩, 0, 0, none⟩ := by
    simp only [decodeIntoSt, h, hb, hidl]
    rw [if_neg (by simp [USIZEM])]
    exact decodeLoop_done params idl (0 * b) (8 * input.length + 1) _ (by simp)
  refine ⟨?_, _, key, rfl, rfl⟩
  simp [decode, key]

/-- C10: `push_input` only appends to the input buffer: the reader's bytes
become `buf ++ input`, `avail_in` grows by exactly `input.length` (the
cursor never sits past the buffered bytes, which the hypothesis records),
and every other observable piece of decoder state — cursor, totals,
predictor, RSI counters, pending bytes and pending repeat — is unchanged.
It cannot fail (it is a total function). -/
theorem c10_push_input_only_appends (d : Decoder) (input : List Nat)
    (h : d.reader.bitPos / 8 ≤ d.reader.buf.length) :
    (d.push_input input).reader.buf = d.reader.buf ++ input ∧
    (d.push_input input).avail_in = d.avail_in + input.length ∧
    (d.push_input input).reader.bitPos = d.reader.bitPos ∧
    (d.push_input input).reader.total_bytes_dropped = d.reader.total_bytes_dropped ∧
    (d.push_input input).samples_written = d.samples_written ∧
    (d.push_input input).total_in = d.total_in ∧
    (d.push_input input).total_out = d.total_out ∧
    (d.push_input input).predictor_x = d.predictor_x ∧
    (d.push_input input).sample_index_within_rsi = d.sample_index_within_rsi ∧
    (d.push_input input).block_index_within_rsi = d.block_index_within_rsi ∧
    (d.push_input input).pending = d.pending ∧
    (d.push_input input).pending_pos = d.pending_pos ∧
    (d.push_input input).pending_repeat = d.pending_repeat := by
  refine ⟨rfl, ?_, rfl, rfl, rfl, rfl, rfl, rfl, rfl, rfl, rfl, rfl, rfl⟩
  simp only [Decoder.push_input, Decoder.avail_in, StreamBitReader.avail_bytes,
    StreamBitReader.push, List.length_append]
  omega

/-- Witness for C10 at a concrete decoder and byte list. -/
theorem c10_push_input_only_appends_witness :
    (demoDecoder.push_input [17, 34]).reader.buf = demoDecoder.reader.buf ++ [17, 34] ∧
    (demoDecoder.push_input [17, 34]).avail_in = demoDecoder.avail_in + 2 :=
  ⟨(c10_push_input_only_appends demoDecoder [17, 34] (by decide)).1,
   (c10_push_input_only_appends demoDecoder [17, 34] (by decide)).2.1⟩

/-- On even coded values the source's folded delta is the plain magnitude. -/
theorem delta_fold_even (d : Nat) (hd : d % 2 = 0) :
    Int.xor ((d >>> 1 : Nat) : Int) (Int.lnot (((d &&& 1 : Nat) : Int) - 1)) =
      ((d / 2 : Nat) : Int) := by
  rw [Nat.and_one_is_mod, Nat.shiftRight_one, hd]
  rw [show (((0 : Nat) : Int) - 1) = Int.negSucc 0 from rfl]
  show Int.xor (Int.ofNat (d / 2)) (Int.lnot (Int.negSucc 0)) = Int.ofNat (d / 2)
  rw [show Int.lnot (Int.negSucc 0) = Int.ofNat 0 from rfl]
  show Int.ofNat (d / 2 ^^^ 0) = Int.ofNat (d / 2)
  rw [Nat.xor_zero]

/-- On odd coded values the source's folded delta is the two's-complement
negation `-(d >> 1) - 1`. -/
theorem delta_fold_odd (d : Nat) (hd : d % 2 = 1) :
    Int.xor ((d >>> 1 : Nat) : Int) (Int.lnot (((d &&& 1 : Nat) : Int) - 1)) =
      -((d / 2 : Nat) : Int) - 1 := by
  rw [Nat.and_one_is_mod, Nat.shiftRight_one, hd]
  rw [show (((1 : Nat) : Int) - 1) = Int.ofNat 0 from rfl]
  show Int.xor (Int.ofNat (d / 2)) (Int.lnot (Int.ofNat 0)) = -(Int.ofNat (d / 2)) - 1
  rw [show Int.lnot (Int.ofNat 0) = Int.negSucc 0 from rfl]
  show Int.negSucc (d / 2 ^^^ 0) = -(Int.ofNat (d / 2)) - 1
  rw [Nat.xor_zero]
  rw [Int.negSucc_eq]
  show -(Int.ofNat (d / 2) + 1) = -(Int.ofNat (d / 2)) - 1
  ring

/-- C2: with PREPROCESS on, the code's reconstruction of a coded value `d`
from predictor `x` agrees exactly with the spec formulas: the folded delta
`(d >> 1) XOR ~((d & 1) - 1)`, `half_d = (d >> 1) + (d & 1)`, the SIGNED
branches around `signed_max = 2^(n-1) - 1`, and the unsigned MSB-mask
branches around `unsigned_max = 2^n - 1` (for the unsigned case the
predictor is a valid `i64` holding a non-negative sample, as the
hypotheses record). -/
theorem c2_inverse_preprocess_matches_spec (params : AecParams) (x : Int) (d : Nat) :
    (params.flags.data_signed = true →
      inverse_preprocess_step x d params = specReconstructSigned params.bits_per_sample x d) ∧
    (params.flags.data_signed = false → 0 ≤ x → x < 2 ^ 63 →
      inverse_preprocess_step x d params = specReconstructUnsigned params.bits_per_sample
        x.toNat d) := by
  have hδ : Int.xor ((d >>> 1 : Nat) : Int) (Int.lnot (((d &&& 1 : Nat) : Int) - 1)) =
      (if d % 2 = 0 then ((d / 2 : Nat) : Int) else -((d / 2 : Nat) : Int) - 1) := by
    rcases Nat.mod_two_eq_zero_or_one d with hd | hd
    · rw [delta_fold_even d hd, if_pos hd]
    · rw [delta_fold_odd d hd, if_neg (by omega)]
  have hhalf : (d >>> 1) + (d &&& 1) = d / 2 + d % 2 := by
    rw [Nat.shiftRight_one, Nat.and_one_is_mod]
  constructor
  · intro hs
    simp only [inverse_preprocess_step, specReconstructSigned, hs]
    rw [hδ, hhalf]
    simp
  · intro hs hx0 hx1
    have hmod : x % (2 : Int) ^ 64 = x :=
      Int.emod_eq_of_lt hx0 (lt_trans hx1 (by norm_num))
    have htn : ((x.toNat : Nat) : Int) = x := Int.toNat_of_nonneg hx0
    simp only [inverse_preprocess_step, specReconstructUnsigned, hs]
    rw [if_neg (by decide : ¬ (false = true))]
    rw [hδ, hhalf, hmod, htn]
    exact if_congr Nat.cast_le rfl rfl

/-- Witness for C2 in both the SIGNED and the unsigned configuration. -/
theorem c2_inverse_preprocess_matches_spec_witness :
    inverse_preprocess_step (-3) 7 demoParamsSigned = specReconstructSigned 8 (-3) 7 ∧
    inverse_preprocess_step 250 20 demoParams = specReconstructUnsigned 8 (Int.toNat 250) 20 :=
  ⟨(c2_inverse_preprocess_matches_spec demoParamsSigned (-3) 7).1 rfl,
   (c2_inverse_preprocess_matches_spec demoParams 250 20).2 rfl (by decide) (by decide)⟩

/-- When fewer bits than requested remain, the slice reader's bit loop
fails with the absolute position of the first missing bit. -/
theorem readBitsGo_eof (data : List Nat) :
    ∀ (k pos acc : Nat), 1 ≤ k → 8 * data.length < pos + k →
      BitReader.readBitsGo ⟨data, pos⟩ acc k =
        .error (.unexpectedEof (max pos (8 * data.length))) := by
  intro k
  induction k with
  | zero => intro pos acc h1 h2; omega
  | succ n ih =>
    intro pos acc h1 h2
    by_cases hp : pos < 8 * data.length
    · have hidx : pos / 8 < data.length := by omega
      have hbit : (⟨data, pos⟩ : BitReader).readBit1 =
          .ok ((data[pos / 8] >>> (7 - pos % 8)) &&& 1, ⟨data, pos + 1⟩) := by
        simp [BitReader.readBit1, List.getElem?_eq_getElem hidx]
      have hmax : max (pos + 1) (8 * data.length) = max pos (8 * data.length) := by omega
      simp only [BitReader.readBitsGo, hbit]
      rw [ih (pos + 1) _ (by omega) (by omega), hmax]
    · have hidx : data.length ≤ pos / 8 := by omega
      have hbit : (⟨data, pos⟩ : BitReader).readBit1 = .error (.unexpectedEof pos) := by
        simp [BitReader.readBit1, List.getElem?_eq_none hidx]
      have hmax : max pos (8 * data.length) = pos := by omega
      simp only [BitReader.readBitsGo, hbit, hmax]

/-- Stream-reader analogue of `readBitsGo_eof`: the error carries
`bits_read_total`, i.e. the dropped prefix plus the failing position. -/
theorem streamReadBitsGo_eof (data : List Nat) (dropped : Nat) :
    ∀ (k pos acc : Nat), 1 ≤ k → 8 * data.length < pos + k →
      StreamBitReader.readBitsGo ⟨data, pos, dropped⟩ acc k =
        .error (.unexpectedEof (dropped * 8 + max pos (8 * data.length))) := by
  intro k
  induction k with
  | zero => intro pos acc h1 h2; omega
  | succ n ih =>
    intro pos acc h1 h2
    by_cases hp : pos < 8 * data.length
    · have hidx : pos / 8 < data.length := by omega
      have hbit : (⟨data, pos, dropped⟩ : StreamBitReader).readBit1 =
          .ok ((data[pos / 8] >>> (7 - pos % 8)) &&& 1, ⟨data, pos + 1, dropped⟩) := by
        simp [StreamBitReader.readBit1, List.getElem?_eq_getElem hidx]
      have hmax : max (pos + 1) (8 * data.length) = max pos (8 * data.length) := by omega
      simp only [StreamBitReader.readBitsGo, hbit]
      rw [ih (pos + 1) _ (by omega) (by omega), hmax]
    · have hidx : data.length ≤ pos / 8 := by omega
      have hbit : (⟨data, pos, dropped⟩ : StreamBitReader).readBit1 =
          .error (.unexpectedEof (dropped * 8 + pos)) := by
        simp [StreamBitReader.readBit1, StreamBitReader.bits_read_total,
          List.getElem?_eq_none hidx]
      have hmax : max pos (8 * data.length) = pos := by omega
      simp only [StreamBitReader.readBitsGo, hbit, hmax]

/-- C8: for `k ≤ 32`, `read_bits_u32(k)` on either reader fails with
`UNEXPECTED_EOF` carrying the absolute bit position (for the stream
reader, including the dropped prefix) whenever fewer than `k` bits remain
buffered, and `read_bits_u32(0)` returns 0 without advancing the cursor. -/
theorem c8_read_bits_eof_and_zero (data : List Nat) (pos dropped k : Nat) (hk : k ≤ 32) :
    (1 ≤ k → 8 * data.length - pos < k →
      BitReader.read_bits_u32 ⟨data, pos⟩ k =
        .error (.unexpectedEof (max pos (8 * data.length)))) ∧
    BitReader.read_bits_u32 ⟨data, pos⟩ 0 = .ok (0, ⟨data, pos⟩) ∧
    (1 ≤ k → 8 * data.length - pos < k →
      StreamBitReader.read_bits_u32 ⟨data, pos, dropped⟩ k =
        .error (.unexpectedEof (dropped * 8 + max pos (8 * data.length)))) ∧
    StreamBitReader.read_bits_u32 ⟨data, pos, dropped⟩ 0 = .ok (0, ⟨data, pos, dropped⟩) := by
  refine ⟨?_, rfl, ?_, rfl⟩
  · intro h1 h2
    unfold BitReader.read_bits_u32
    rw [if_neg (by omega), if_neg (by omega)]
    exact readBitsGo_eof data k pos 0 h1 (by omega)
  · intro h1 h2
    unfold StreamBitReader.read_bits_u32
    rw [if_neg (by omega), if_neg (by omega)]
    exact streamReadBitsGo_eof data dropped k pos 0 h1 (by omega)

/-- Witness for C8: reading 4 bits at position 6 of a one-byte buffer
fails at absolute position 8; reading 0 bits does not move the cursor. -/
theorem c8_read_bits_eof_and_zero_witness :
    BitReader.read_bits_u32 ⟨[255], 6⟩ 4 = .error (.unexpectedEof 8) ∧
    StreamBitReader.read_bits_u32 ⟨[255], 6, 3⟩ 4 = .error (.unexpectedEof 32) ∧
    BitReader.read_bits_u32 ⟨[255], 6⟩ 0 = .ok (0, ⟨[255], 6⟩) :=
  ⟨(c8_read_bits_eof_and_zero [255] 6 0 4 (by decide)).1 (by decide) (by decide),
   (c8_read_bits_eof_and_zero [255] 6 3 4 (by decide)).2.2.1 (by decide) (by decide),
   (c8_read_bits_eof_and_zero [255] 6 0 4 (by decide)).2.1⟩

/-- Witness for C9 at concrete input and parameters. -/
theorem c9_zero_output_samples_witness :
    decode [7, 7, 7] demoParams 0 = .ok [] :=
  (c9_zero_output_samples [7, 7, 7] demoParams rfl).1

/-- A packed sample is exactly `bytes_per_sample` bytes. -/
theorem sampleBytes_length (raw b : Nat) (msb : Bool) : (sampleBytes raw b msb).length = b := by
  unfold sampleBytes
  split <;> simp

/-- `write_sample` succeeds whenever one more sample fits, and appends
exactly `bytes_per_sample` bytes. -/
theorem write_sample_ok (out : OutBuf) (v : Int) (params : AecParams)
    (h : out.data.length + out.bytes_per_sample ≤ out.cap) :
    ∃ out', write_sample out v params = .ok out' ∧
      out'.data.length = out.data.length + out.bytes_per_sample ∧
      out'.bytes_per_sample = out.bytes_per_sample ∧ out'.cap = out.cap := by
  unfold write_sample
  rw [if_neg (by omega)]
  exact ⟨_, rfl, by simp [sampleBytes_length], rfl, rfl⟩

/-- `emit_coded_value` succeeds when the output has room (and, under
PREPROCESS, a predictor is present), appends one packed sample, bumps the
in-RSI sample counter, and leaves a usable predictor behind. -/
theorem emit_coded_value_ok (out : OutBuf) (pred : Option Int) (params : AecParams)
    (v sirsi ob : Nat)
    (hpred : params.flags.data_preprocess = false ∨ ∃ y, pred = some y)
    (hroom : out.data.length < ob)
    (hcap : out.data.length + out.bytes_per_sample ≤ out.cap) :
    ∃ out' pred',
      emit_coded_value out pred params v sirsi ob = .ok (out', pred', sirsi + 1) ∧
      out'.data.length = out.data.length + out.bytes_per_sample ∧
      out'.bytes_per_sample = out.bytes_per_sample ∧ out'.cap = out.cap ∧
      (params.flags.data_preprocess = false ∨ ∃ y, pred' = some y) := by
  unfold emit_coded_value
  rw [if_neg (by omega)]
  cases hpp : params.flags.data_preprocess with
  | true =>
    obtain ⟨y, hy⟩ : ∃ y, pred = some y := by
      rcases hpred with h | h
      · rw [hpp] at h; exact absurd h (by simp)
      · exact h
    obtain ⟨out', hws, hlen, hbps, hcap'⟩ :=
      write_sample_ok out (inverse_preprocess_step y v params) params hcap
    rw [hy]
    simp only [hws]
    exact ⟨out', some (inverse_preprocess_step y v params), by simp, hlen, hbps, hcap',
      Or.inr ⟨_, rfl⟩⟩
  | false =>
    obtain ⟨out', hws, hlen, hbps, hcap'⟩ := write_sample_ok out (v : Int) params hcap
    simp only [hws]
    exact ⟨out', pred, by simp, hlen, hbps, hcap', Or.inl (by simp)⟩

/-- `emit_repeated_value` with enough output room emits exactly `count`
samples of the repeated coded value: `count · bytes_per_sample` bytes and
`count` increments of the in-RSI sample counter. -/
theorem emit_repeated_value_ok :
    ∀ (count : Nat) (out : OutBuf) (pred : Option Int) (params : AecParams) (sirsi ob : Nat),
      (params.flags.data_preprocess = false ∨ ∃ y, pred = some y) →
      1 ≤ out.bytes_per_sample →
      out.data.length + out.bytes_per_sample * count ≤ ob →
      ob ≤ out.cap →
      ∃ out' pred',
        emit_repeated_value out pred params 0 count sirsi ob = .ok (out', pred', sirsi + count) ∧
        out'.data.length = out.data.length + out.bytes_per_sample * count := by
  intro count
  induction count with
  | zero =>
    intro out pred params sirsi ob hpred hB hle hcap
    exact ⟨out, pred, rfl, by simp⟩
  | succ c ih =>
    intro out pred params sirsi ob hpred hB hle hcap
    have hBc : out.bytes_per_sample ≤ out.bytes_per_sample * (c + 1) :=
      Nat.le_mul_of_pos_right _ (Nat.succ_pos c)
    obtain ⟨out1, pred1, hemit, hlen1, hbps1, hcap1, hpred1⟩ :=
      emit_coded_value_ok out pred params 0 sirsi ob hpred (by omega) (by omega)
    have hle1 : out1.data.length + out1.bytes_per_sample * c ≤ ob := by
      rw [hlen1, hbps1]
      have : out.bytes_per_sample * (c + 1) = out.bytes_per_sample + out.bytes_per_sample * c :=
        by ring
      omega
    obtain ⟨out2, pred2, hrec, hlen2⟩ :=
      ih out1 pred1 params (sirsi + 1) ob hpred1 (by omega) hle1 (by omega)
    refine ⟨out2, pred2, ?_, ?_⟩
    · unfold emit_repeated_value
      rw [if_neg (by omega)]
      simp only [hemit, hrec]
      have : sirsi + 1 + c = sirsi + (c + 1) := by omega
      rw [this]
    · rw [hlen2, hlen1, hbps1]
      have : out.bytes_per_sample * (c + 1) = out.bytes_per_sample + out.bytes_per_sample * c :=
        by ring
      omega

/-- C3: for a zero-block run read at block index `b` within an RSI, the
run length in blocks computed by the decoder (`zeroRunBlocks`, with
`z = fs + 1`) is `z` for `z < 5`, `min(R - b, 64 - (b mod 64))` for
`z = 5`, and `z - 1` for `z > 5`; the scheduled sample count
(`zeroRunSamplesOS`) is `J · runlength` minus one when the RSI reference
sample was already emitted in the run's first block; and emitting that
schedule (`emit_repeated_value` with coded value 0, as the zero-run arm of
`decodeBlock` does) produces exactly that many samples when the output has
room. -/
theorem c3_zero_block_run :
    (∀ rsi b fs, zeroRunBlocks rsi b fs =
      (if fs + 1 < 5 then fs + 1
       else if fs + 1 = 5 then min (rsi - b) (64 - b % 64)
       else fs)) ∧
    (∀ z J (refc : Bool), z * J ≤ U32M →
      zeroRunSamplesOS z J refc = .ok (z * J - (if refc then 1 else 0))) ∧
    (∀ count out pred params sirsi ob,
      (params.flags.data_preprocess = false ∨ ∃ y, pred = some y) →
      1 ≤ out.bytes_per_sample →
      out.data.length + out.bytes_per_sample * count ≤ ob →
      ob ≤ out.cap →
      ∃ out' pred',
        emit_repeated_value out pred params 0 count sirsi ob = .ok (out', pred', sirsi + count) ∧
        out'.data.length = out.data.length + out.bytes_per_sample * count) := by
  refine ⟨?_, ?_, ?_⟩
  · intro rsi b fs
    simp only [zeroRunBlocks]
    split_ifs <;> first | rfl | omega
  · intro z J refc hle
    unfold zeroRunSamplesOS
    rw [if_neg (by omega)]
    cases refc <;> simp
  · intro count out pred params sirsi ob hpred hB hle hcap
    exact emit_repeated_value_ok count out pred params sirsi ob hpred hB hle hcap

/-- Witness for C3: the three regimes at concrete values, the
reference-sample discount, and a concrete 3-sample zero emission. -/
theorem c3_zero_block_run_witness :
    zeroRunBlocks 128 5 4 = min 123 59 ∧
    zeroRunSamplesOS 2 8 true = .ok 15 ∧
    (∃ out' pred',
      emit_repeated_value demoOut8 none demoParams 0 3 0 8 = .ok (out', pred', 0 + 3) ∧
      out'.data.length = demoOut8.data.length + demoOut8.bytes_per_sample * 3) := by
  refine ⟨?_, ?_, ?_⟩
  · rw [c3_zero_block_run.1 128 5 4]; decide
  · rw [c3_zero_block_run.2.1 2 8 true (by decide)]; rfl
  · exact c3_zero_block_run.2.2 3 demoOut8 none demoParams 0 8 (Or.inl rfl) (by decide)
      (by decide) (by decide)

/-- C4: Second Extension.  (1) For every unary symbol `m < 91` the decoded
pair `(a, b) = second_extension_pair m` lies on the triangular enumeration:
`a + b ≤ 12` and `m` is exactly the triangular index `(a+b)(a+b+1)/2 + b`
(equivalently, the `m`-th pair of the `s = 0..12, k = 0..s ↦ (s-k, k)`
enumeration).  (2) A unary symbol `m > 90` makes the decode fail with
`INVALID_INPUT`.  (3) When the block did not start with the reference in
slot 0, one symbol emits `a` then `b`, consuming two block slots
(`remaining_in_block` drops by 2 before the loop continues).  (4) When
slot 0 held the RSI reference sample, the first symbol emits only its
second element `b`, consuming one slot. -/
theorem c4_second_extension :
    (∀ m, m < 91 →
      (second_extension_pair m).1 + (second_extension_pair m).2 ≤ 12 ∧
      ((second_extension_pair m).1 + (second_extension_pair m).2) *
          ((second_extension_pair m).1 + (second_extension_pair m).2 + 1) / 2 +
        (second_extension_pair m).2 = m) ∧
    (∀ (r r' : BitReader) (out : OutBuf) (pred : Option Int) (params : AecParams)
        (rem : Nat) (nodd : Bool) (sirsi ob m : Nat),
      rem ≠ 0 → out.data.length < ob → read_unary r = .ok (m, r') → 90 < m →
      emit_second_extension r out pred params rem nodd sirsi ob =
        .error (.invalidInput "Second Extension unary symbol too large")) ∧
    (∀ (r r' : BitReader) (out : OutBuf) (pred : Option Int) (params : AecParams)
        (rem sirsi ob m : Nat),
      rem ≠ 0 → out.data.length < ob → read_unary r = .ok (m, r') → m ≤ 90 →
      emit_second_extension r out pred params rem false sirsi ob =
        (match emit_coded_value out pred params (second_extension_pair m).1 sirsi ob with
         | .error e => .error e
         | .ok (o1, p1, s1) =>
           if rem - 1 = 0 ∨ o1.data.length ≥ ob then .ok (r', o1, p1, s1)
           else
             match emit_coded_value o1 p1 params (second_extension_pair m).2 s1 ob with
             | .error e => .error e
             | .ok (o2, p2, s2) =>
               emit_second_extension r' o2 p2 params (rem - 1 - 1) false s2 ob)) ∧
    (∀ (r r' : BitReader) (out : OutBuf) (pred : Option Int) (params : AecParams)
        (rem sirsi ob m : Nat),
      rem ≠ 0 → out.data.length < ob → read_unary r = .ok (m, r') → m ≤ 90 →
      emit_second_extension r out pred params rem true sirsi ob =
        (match emit_coded_value out pred params (second_extension_pair m).2 sirsi ob with
         | .error e => .error e
         | .ok (o, pr, s) =>
           emit_second_extension r' o pr params (rem - 1) false s ob)) := by
  refine ⟨by decide, ?_, ?_, ?_⟩
  · intro r r' out pred params rem nodd sirsi ob m hrem hroom hread hm
    rw [emit_second_extension, dif_neg (by push_neg; exact ⟨hrem, by omega⟩), hread]
    simp [hm]
  · intro r r' out pred params rem sirsi ob m hrem hroom hread hm
    rw [emit_second_extension, dif_neg (by push_neg; exact ⟨hrem, by omega⟩), hread]
    simp only []
    rw [if_neg (by omega), if_neg (by simp)]
  · intro r r' out pred params rem sirsi ob m hrem hroom hread hm
    rw [emit_second_extension, dif_neg (by push_neg; exact ⟨hrem, by omega⟩), hread]
    simp only []
    rw [if_neg (by omega), if_pos trivial]

set_option maxRecDepth 4000 in
/-- Witness for C4: the pair at index 5 (`(1, 1)`), and the rejection of a
concrete unary-91 stream (91 zero bits then a one). -/
theorem c4_second_extension_witness :
    ((second_extension_pair 5).1 + (second_extension_pair 5).2 ≤ 12 ∧
      ((second_extension_pair 5).1 + (second_extension_pair 5).2) *
          ((second_extension_pair 5).1 + (second_extension_pair 5).2 + 1) / 2 +
        (second_extension_pair 5).2 = 5) ∧
    emit_second_extension ⟨c4BadInput, 0⟩ demoOut8 none demoParams 8 false 0 8 =
      .error (.invalidInput "Second Extension unary symbol too large") :=
  ⟨c4_second_extension.1 5 (by decide),
   c4_second_extension.2.1 ⟨c4BadInput, 0⟩ ⟨c4BadInput, 92⟩ demoOut8 none demoParams 8 false 0 8
     91 (by decide) (by decide) rfl (by decide)⟩

/-- With PREPROCESS on, the end-of-block advance keeps the counter below
`rsi`. -/
theorem endAdvance_birsi_lt (params : AecParams) (st : DIState)
    (hpre : params.flags.data_preprocess = true) (hrsi : 0 < params.rsi) :
    (endAdvance params st).birsi < params.rsi := by
  simp only [endAdvance]
  by_cases hc : params.flags.data_preprocess = true ∧ satAdd32 st.birsi 1 ≥ params.rsi
  · rw [if_pos hc]
    simpa using hrsi
  · rw [if_neg hc]
    have hlt : ¬ satAdd32 st.birsi 1 ≥ params.rsi := fun hge => hc ⟨hpre, hge⟩
    show satAdd32 st.birsi 1 < params.rsi
    omega

/-- The zero-run advance keeps the counter below `rsi` (it wraps modulo
`rsi` unconditionally). -/
theorem zeroRunWrap_birsi_lt (params : AecParams) (st : DIState) (z : Nat)
    (hrsi : 0 < params.rsi) : (zeroRunWrap params st z).birsi < params.rsi := by
  simp only [zeroRunWrap]
  by_cases hc : satAdd32 st.birsi z ≥ params.rsi
  · rw [if_pos hc]
    simpa using Nat.mod_lt (satAdd32 st.birsi z) hrsi
  · rw [if_neg hc]
    show satAdd32 st.birsi z < params.rsi
    omega

/-- C6 (amended): when PREPROCESS is set (and `rsi > 0`, which parameter
validation guarantees), every state reached from a state with
`block_index_within_rsi < rsi` by decoding one block again satisfies
`block_index_within_rsi < rsi`; since the loop starts at 0, the counter
stays below `rsi` at every reachable state of the decode.  Without
PREPROCESS the property fails (see the counterexample). -/
theorem c6_block_counter_invariant_with_preprocess
    (params : AecParams) (idl ob : Nat) (st st' : DIState)
    (hpre : params.flags.data_preprocess = true) (hrsi : 0 < params.rsi)
    (hbi : st.birsi < params.rsi)
    (h : decodeBlock params idl ob st = .ok st') :
    st'.birsi < params.rsi := by
  simp only [decodeBlock] at h
  repeat' split at h
  all_goals first
    | exact Except.noConfusion h
    | (injection h with h2; subst h2;
       first
        | exact hbi
        | exact endAdvance_birsi_lt params _ hpre hrsi
        | exact zeroRunWrap_birsi_lt params _ _ hrsi)

set_option maxRecDepth 4000 in
/-- Witness for the amended C6: a concrete PREPROCESS block decode
(uncompressed, with reference sample, `rsi = 2`) whose result keeps the
counter below `rsi`. -/
theorem c6_block_counter_invariant_with_preprocess_witness :
    c6wSt1.birsi < c6wParams.rsi :=
  c6_block_counter_invariant_with_preprocess c6wParams 3 9 c6St0 c6wSt1 rfl (by decide)
    (by decide) rfl

/-- The repeat-drain loop only ever surfaces NeedOutput or Finished. -/
theorem flushRepeatGo_not_needInput (v out_len : Nat) :
    ∀ (rem : Nat) (w : List Nat) (d : Decoder) (s : DecodeStatus) (w' : List Nat)
      (d' : Decoder),
      flushRepeatGo v out_len rem w d = .ok (some s, w', d') → s ≠ .needInput := by
  intro rem
  induction rem with
  | zero =>
    intro w d s w' d' h
    unfold flushRepeatGo at h
    split_ifs at h <;>
      · simp only [Except.ok.injEq, Prod.mk.injEq] at h
        obtain ⟨h1, -, -⟩ := h
        first
          | (injection h1 with h1; subst h1; decide)
          | exact Option.noConfusion h1
  | succ n ih =>
    intro w d s w' d' h
    unfold flushRepeatGo at h
    split_ifs at h <;>
      first
        | (simp only [Except.ok.injEq, Prod.mk.injEq] at h
           obtain ⟨h4, -, -⟩ := h
           first
             | (injection h4 with h4; subst h4; decide)
             | exact Option.noConfusion h4)
        | (rcases hres : emit_coded_value ⟨d.bytes_per_sample, [], d.bytes_per_sample⟩
              d.predictor_x d.params v d.sample_index_within_rsi USIZEM with e | ⟨o, p, sx⟩ <;>
            rw [hres] at h <;>
            first
              | exact Except.noConfusion h
              | exact ih _ _ _ _ _ h)

/-- `flush_repeat` only ever surfaces NeedOutput or Finished. -/
theorem flush_repeat_not_needInput (d : Decoder) (out_len : Nat) (w : List Nat)
    (s : DecodeStatus) (w' : List Nat) (d' : Decoder)
    (h : d.flush_repeat out_len w = .ok (some s, w', d')) : s ≠ .needInput := by
  unfold Decoder.flush_repeat at h
  split at h
  · simp only [Except.ok.injEq, Prod.mk.injEq] at h
    obtain ⟨h1, -, -⟩ := h
    exact Option.noConfusion h1
  · exact flushRepeatGo_not_needInput _ _ _ _ _ _ _ _ h

/-- An early return of the loop tail never carries NeedInput. -/
theorem decodeGoStep_not_needInput (out_len : Nat) (w : List Nat) (d1 : Decoder)
    (w2 : List Nat) (st : DecodeStatus) (d3 : Decoder)
    (h : decodeGoStep out_len w d1 = .ok (.inl (w2, st, d3))) : st ≠ .needInput := by
  unfold decodeGoStep at h
  split_ifs at h with h1
  · simp only [Except.ok.injEq, Sum.inl.injEq, Prod.mk.injEq] at h
    obtain ⟨-, h4, -⟩ := h
    subst h4
    decide
  · split at h
    · exact Except.noConfusion h
    · rename_i r heqr
      split at h
      · rename_i status heq1
        simp only [Except.ok.injEq, Sum.inl.injEq, Prod.mk.injEq] at h
        obtain ⟨-, h4, -⟩ := h
        subst h4
        have h5 : Decoder.flush_repeat
            (d1.afterCompact.flush_pending (out_len - w.length)).2 out_len
            (w ++ (d1.afterCompact.flush_pending (out_len - w.length)).1) =
            .ok (some status, r.2.1, r.2.2) := by
          rw [heqr, ← heq1]
        exact flush_repeat_not_needInput _ _ _ _ _ _ h5
      · simp only [Except.ok.injEq] at h
        exact Sum.noConfusion h

/-- Under FLUSH the block loop of `Decoder::decode` never returns
NeedInput: input starvation becomes `UnexpectedEofDuringDecode`. -/
theorem decodeGo_flush_not_needInput (out_len : Nat) :
    ∀ (fuel : Nat) (w : List Nat) (d : Decoder) (w' : List Nat) (s : DecodeStatus)
      (d' : Decoder),
      decodeGo out_len .flush fuel w d = .ok (w', s, d') → s ≠ .needInput := by
  intro fuel
  induction fuel with
  | zero =>
    intro w d w' s d' h
    exact Except.noConfusion h
  | succ n ih =>
    intro w d w' s d' h
    unfold decodeGo decodeGoBody at h
    by_cases h1 : w.length < out_len
    · rw [if_neg (not_not_intro h1)] at h
      by_cases h2 : d.samples_written ≥ d.output_samples
      · rw [if_pos h2] at h
        simp only [Except.ok.injEq, Prod.mk.injEq] at h
        obtain ⟨-, h4, -⟩ := h
        subst h4
        decide
      · rw [if_neg h2] at h
        rcases hres : decode_next_unit d.rsiPredictorReset with e | d1
        · rw [hres] at h
          cases e <;> exact Except.noConfusion h
        · rw [hres] at h
          simp only [] at h
          rcases hstep : decodeGoStep out_len w d1 with e2 | su
          · rw [hstep] at h
            exact Except.noConfusion h
          · rcases su with res | cont
            · rw [hstep] at h
              have h6 : res = (w', s, d') := by
                have h7 := h
                simp only [Except.ok.injEq] at h7
                exact h7
              subst h6
              exact decodeGoStep_not_needInput out_len w d1 w' s d' hstep
            · rw [hstep] at h
              exact ih _ _ _ _ _ h
    · rw [if_pos h1] at h
      simp only [Except.ok.injEq, Prod.mk.injEq] at h
      obtain ⟨-, h4, -⟩ := h
      subst h4
      decide

/-- Under FLUSH a successful `Decoder::decode` never carries NeedInput. -/
theorem decode_flush_not_needInput (d : Decoder) (out_len : Nat) (w : List Nat)
    (s : DecodeStatus) (d' : Decoder)
    (h : d.decode out_len .flush = .ok (w, s, d')) : s ≠ .needInput := by
  unfold Decoder.decode at h
  split_ifs at h with h1 h2
  · simp only [Except.ok.injEq, Prod.mk.injEq] at h
    obtain ⟨-, h4, -⟩ := h
    subst h4
    decide
  · simp only [Except.ok.injEq, Prod.mk.injEq] at h
    obtain ⟨-, h4, -⟩ := h
    subst h4
    decide
  · split at h
    · exact Except.noConfusion h
    · rename_i r heqr
      split at h
      · rename_i status heq1
        simp only [Except.ok.injEq, Prod.mk.injEq] at h
        obtain ⟨-, h4, -⟩ := h
        subst h4
        have h5 : Decoder.flush_repeat (d.flush_pending out_len).2 out_len
            (d.flush_pending out_len).1 = .ok (some status, r.2.1, r.2.2) := by
          rw [heqr, ← heq1]
        exact flush_repeat_not_needInput _ _ _ _ _ _ h5
      · exact decodeGo_flush_not_needInput _ _ _ _ _ _ _ h

/-- C7 (amended): `decode(buf, FLUSH)` never returns the NeedInput status
for any decoder state and any output-buffer size; on success the status is
Finished or NeedOutput (NeedOutput also occurs when the caller buffer is
full or zero-length — see the counterexample), and input starvation
surfaces as an `UNEXPECTED_EOF_DURING_DECODE` error. -/
theorem c7_flush_never_need_input (d : Decoder) (out_len : Nat) :
    decodeStatusOf (d.decode out_len .flush) ≠ some .needInput := by
  unfold decodeStatusOf
  split
  · rename_i w s d' heq
    intro hc
    injection hc with hc
    exact decode_flush_not_needInput d out_len w s d' heq hc
  · exact Option.noConfusion

/-- Witness for the amended C7 at a concrete decoder and buffer size. -/
theorem c7_flush_never_need_input_witness :
    decodeStatusOf (demoDecoder.decode 0 .flush) ≠ some .needInput :=
  c7_flush_never_need_input demoDecoder 0
